import Mathlib

/-
Verification development for the crypto-derivs-json pipeline
(scripts/build_derivs_json.py and scripts/build_metrics.py).

Modelling conventions:
* Python floats are modelled as exact rationals (ℚ); `math.sqrt` is modelled
  as `Real.sqrt`, so a z-score value lives in ℝ.
* A UTC calendar-day string produced by `to_date_ymd` / `to_date_ymd_ms`
  ("%Y-%m-%d") is modelled as the day index `ms / 86400000`: two millisecond
  timestamps map to the same string iff they map to the same index, and
  lexicographic order of the strings agrees with numeric order of the indices.
* The filesystem is a finite map from path strings to file contents; the
  published JSON document is stored structurally (serialisation by
  `json.dump` is deterministic, so equal stored documents mean byte-identical
  files and vice versa).
* Fallible fetches are `Except Unit` values: `.ok` carries the parsed series,
  `.error` stands for any exception escaping the adapter.
-/

/-- Day index of a UTC millisecond timestamp; models `to_date_ymd` (derivs
script) and `to_date_ymd_ms` (metrics script), which format the UTC day of
`ms` as a "%Y-%m-%d" string. -/
def dayOf (ms : ℕ) : ℕ := ms / 86400000

/-- A raw funding-rate sample, as parsed from an exchange response
(`fundingRateTimestamp` in ms, `fundingRate`). -/
structure RawFunding where
  ts : ℕ
  rate : ℚ
deriving DecidableEq

/-- A raw open-interest sample, as parsed from an exchange response
(`timestamp`/`ts` in ms, `openInterest`/`oi`). -/
structure RawOI where
  ts : ℕ
  oi : ℚ
deriving DecidableEq

/-- One funding DailySeries entry: a calendar day and that day's value. -/
structure DailyEntry where
  date : ℕ
  val : ℚ
deriving DecidableEq

/-- One open-interest DailySeries entry (also the SnapshotSeries entry
shape `{date, oi}`). -/
structure OIEntry where
  date : ℕ
  oi : ℚ
deriving DecidableEq

/-- One entry of the 3-day-change series built by `compute_oi_3d_change`:
a day plus the (possibly null) 3-day percentage change. -/
structure O3Entry where
  date : ℕ
  oi3 : Option ℚ
deriving DecidableEq

/-- Embedding of `z_score` (lines 43-52 of build_derivs_json.py, lines 47-56
of build_metrics.py; the two copies are textually identical):
filter the `None` entries, refuse below 10 points, otherwise standardise
`latest` against the filtered history's population mean and standard
deviation, mapping a zero standard deviation to `0.0`. -/
noncomputable def z_score (series : List (Option ℚ)) (latest : ℚ) : Option ℝ :=
  let xs := series.filterMap id
  if xs.length < 10 then none
  else
    let mean : ℚ := xs.sum / (xs.length : ℚ)
    let varr : ℚ := (xs.map (fun x => (x - mean) ^ 2)).sum / (xs.length : ℚ)
    let sd : ℝ := Real.sqrt (varr : ℝ)
    if sd = 0 then some 0 else some (((latest - mean : ℚ) : ℝ) / sd)

/-- Population mean of a history, in the spec's words (§4.5). -/
def popMean (xs : List ℚ) : ℚ := xs.sum / (xs.length : ℚ)

/-- Population variance of a history — divide by N, not N−1 — in the spec's
words (§4.5). -/
def popVar (xs : List ℚ) : ℚ :=
  (xs.map (fun x => (x - popMean xs) ^ 2)).sum / (xs.length : ℚ)

/-- Embedding of the per-day aggregation and trailing slice of
`get_bybit_funding_daily` (build_derivs_json.py lines 89-101): group the raw
samples by UTC day, average each day's rates, emit the days in ascending
order, and keep the trailing `days + 1` entries (`out[-(days + 1):]`). -/
def funding_daily_agg (got : List RawFunding) (days : ℕ) : List DailyEntry :=
  let ds := ((got.map (fun s => dayOf s.ts)).dedup).insertionSort (· ≤ ·)
  let out := ds.map (fun d =>
    let rs := (got.filter (fun s => dayOf s.ts = d)).map (fun s => s.rate)
    { date := d, val := rs.sum / (rs.length : ℚ) })
  out.drop (out.length - (days + 1))

/-- The lookback window of both scripts (`LOOKBACK_DAYS = 90`). -/
def LOOKBACK_DAYS : ℕ := 90

/-- Embedding of the 8H-branch day aggregation of `oi_daily_okx`
(build_metrics.py lines 124-133): `per_day[r["date"]] = r["oi"]` keeps, for
each day, the oi of the day's last row in list order; days are then sorted
ascending and the trailing `LOOKBACK_DAYS + 8` entries kept. -/
def oi_daily_agg_8h (rows : List RawOI) : List OIEntry :=
  let ds := ((rows.map (fun r => dayOf r.ts)).dedup).insertionSort (· ≤ ·)
  let out := ds.map (fun d =>
    { date := d,
      oi := (((rows.filter (fun r => dayOf r.ts = d)).map (fun r => r.oi)).getLast?).getD 0 })
  out.drop (out.length - (LOOKBACK_DAYS + 8))

/-- Embedding of `compute_oi_3d_change` (build_derivs_json.py lines 137-148):
a parallel series over the same dates where entry `i` is
`oi[i] / oi[i-3] - 1` for `i ≥ 3` (null when the denominator `oi[i-3]` is
zero — Python's `if prev` truthiness test) and null for `i < 3`. -/
def compute_oi_3d_change (s : List OIEntry) : List O3Entry :=
  (List.range s.length).map fun i =>
    { date := (s.getD i ⟨0, 0⟩).date,
      oi3 :=
        if 3 ≤ i then
          (if (s.getD (i - 3) ⟨0, 0⟩).oi = 0 then none
           else some ((s.getD i ⟨0, 0⟩).oi / (s.getD (i - 3) ⟨0, 0⟩).oi - 1))
        else none }

/-- The `ch` list built by the loop inside `compute_oi_delta_z_from_series`
(build_metrics.py lines 175-182): same arithmetic as `compute_oi_3d_change`,
values only. -/
def oiChanges (s : List OIEntry) : List (Option ℚ) :=
  (List.range s.length).map fun i =>
    if 3 ≤ i then
      (if (s.getD (i - 3) ⟨0, 0⟩).oi = 0 then none
       else some ((s.getD i ⟨0, 0⟩).oi / (s.getD (i - 3) ⟨0, 0⟩).oi - 1))
    else none

/-- Embedding of `compute_oi_delta_z_from_series` (build_metrics.py lines
171-191): refuse series shorter than 14 entries, build the 3-day-change
list, locate the last non-null change (the backwards scan of lines 183-187),
and z-score it against the non-null changes strictly before it, reporting
`len(hist) + 1` as the day count. -/
noncomputable def compute_oi_delta_z_from_series (s : List OIEntry) :
    Option ℝ × ℕ :=
  if s.length < 14 then (none, 0)
  else
    let ch := oiChanges s
    match ((ch.zip (List.range ch.length)).filterMap
        (fun p => p.1.map (fun v => (v, p.2)))).getLast? with
    | none => (none, 0)
    | some (v, idx) =>
        let hist := (ch.take idx).filterMap id
        (z_score (hist.map some) v, hist.length + 1)

/-- Embedding of the per-source body of `metric_funding_z` (build_metrics.py
lines 93-106): given one fetched daily series, score it only when it has at
least 11 days, taking the last day as `latest` and all preceding days as the
history; `none` means "fall through to the next source". -/
noncomputable def funding_from (f : List DailyEntry) : Option (Option ℝ × ℕ) :=
  if 11 ≤ f.length then
    some (z_score ((f.dropLast).map (fun e => some e.val))
            (((f.getLast?).getD ⟨0, 0⟩).val),
          f.length)
  else none

/-- One attempted funding source: an exception (`.error`) or a too-short
series both yield `none`, continuing the fallback chain. -/
noncomputable def funding_try (src : Except Unit (List DailyEntry)) :
    Option (Option ℝ × ℕ) :=
  match src with
  | .ok f => funding_from f
  | .error _ => none

/-- Embedding of `metric_funding_z` (build_metrics.py lines 91-109) as a
function of the two fetch outcomes (Bybit first, then OKX): first source to
produce a ≥ 11-day series wins; if neither does, the result is `(None, 0)`. -/
noncomputable def metric_funding_z_core
    (bybit okx : Except Unit (List DailyEntry)) : Option ℝ × ℕ :=
  ((funding_try bybit).orElse (fun _ => funding_try okx)).getD (none, 0)

/-- Embedding of the snapshot-merge step of `metric_oi_delta_z`
(build_metrics.py lines 215-218): if the persisted series is non-empty and
its last entry has the current reading's date, the last entry is replaced by
the reading; otherwise the reading is appended. -/
def merge_current (series : List OIEntry) (cur : OIEntry) : List OIEntry :=
  match series.getLast? with
  | some l => if l.date = cur.date then series.dropLast ++ [cur] else series ++ [cur]
  | none => [cur]

/-- A filesystem: a map from path strings to the contents of the file there,
`none` when no file exists at the path. -/
abbrev FS (α : Type) : Type := String → Option α

/-- Create or overwrite the file at `p` with contents `v`. -/
def fsWrite {α : Type} (fs : FS α) (p : String) (v : α) : FS α :=
  fun q => if q = p then some v else fs q

/-- Delete the file at `p` (`os.remove` / the removal half of `os.replace`). -/
def fsRemove {α : Type} (fs : FS α) (p : String) : FS α :=
  fun q => if q = p then none else fs q

/-- The sentiment record fetched by `fetch_fng` (build_metrics.py). -/
structure Sentiment where
  value : ℤ
  classification : String
  timestamp : ℤ

/-- One published per-instrument item of the Document. -/
structure Item where
  id : String
  funding_z : Option ℝ
  oi_delta_z : Option ℝ
  funding_days : ℕ
  oi_days : ℕ

/-- The published Document (§3): run metadata plus the per-instrument items
and, for the metrics script, the optional sentiment block. -/
structure Document where
  as_of : String
  lookback_days : ℕ
  source : String
  items : List Item
  sentiment : Option Sentiment

/-- Embedding of `write_json_atomic` (build_derivs_json.py lines 177-191):
fully write the document to `path + ".tmp"`; when the item count reaches
`min_items`, atomically rename the temp file onto `path` (`os.replace`),
otherwise remove the temp file and leave `path` untouched. -/
def write_json_atomic (fs : FS Document) (path : String) (data : Document)
    (min_items : ℕ) : FS Document :=
  let tmp := path ++ ".tmp"
  let fs1 := fsWrite fs tmp data
  if min_items ≤ data.items.length then fsRemove (fsWrite fs1 path data) tmp
  else fsRemove fs1 tmp

/-- Embedding of the publish step of `main` in build_metrics.py (lines
263-266): the document is written straight to the target path — no temp
file, no rename, no minimum-item check. -/
def write_json_plain (fs : FS Document) (path : String) (data : Document) :
    FS Document :=
  fsWrite fs path data

/-- The snapshot-file path for one instrument
(`data/oi_series_{id}.json`). -/
def series_path (id : String) : String := "data/oi_series_" ++ id ++ ".json"

/-- Embedding of `load_series` (build_metrics.py lines 155-162): the parsed
file contents, or the empty list when the file is absent (an unparseable
file, also mapped to `[]` by the source, has no counterpart in this typed
store). -/
def load_series (fs : FS (List OIEntry)) (path : String) : List OIEntry :=
  (fs path).getD []

/-- Embedding of `save_series` (build_metrics.py lines 164-169): truncate to
the trailing `cap` entries when the series is longer than `cap` (Python
`series[-cap:]`, which keeps everything when `cap = 0`), then replace the
file's entire contents. -/
def save_series (fs : FS (List OIEntry)) (path : String) (series : List OIEntry)
    (cap : ℕ) : FS (List OIEntry) :=
  let s :=
    if cap < series.length then
      (if cap = 0 then series else series.drop (series.length - cap))
    else series
  fsWrite fs path s

/-- One configured instrument (`COINS`): identity key plus one symbol per
exchange. -/
structure Coin where
  id : String
  bybit : String
  okx : String

/-- The per-symbol result dict returned by `build_for_symbol`
(build_derivs_json.py lines 170-175). -/
structure SymRes where
  funding_z : Option ℝ
  oi_delta_z : Option ℝ
  funding_days : ℕ
  oi_days : ℕ

/-- Embedding of the instrument loop of `main` in build_metrics.py (lines
240-250) as a function of the two per-coin metric outcomes: every coin gets
an item, whose fields are exactly the metric results (a failed metric shows
up as a null value with its day count). -/
def build_items_metrics (coins : List Coin) (fres ores : Coin → Option ℝ × ℕ) :
    List Item :=
  coins.map fun c => ⟨c.id, (fres c).1, (ores c).1, (fres c).2, (ores c).2⟩

/-- Embedding of the instrument loop of `main` in build_derivs_json.py
(lines 193-204) as a function of each coin's `build_for_symbol` outcome:
`.error` (an exception, caught and logged) and `.ok none` (the
insufficient-aligned-days skip) both drop the coin from the items; only
`.ok (some r)` appends an item. -/
def build_items_derivs (coins : List Coin)
    (res : Coin → Except Unit (Option SymRes)) : List Item :=
  coins.filterMap fun c =>
    match res c with
    | .ok (some r) => some ⟨c.id, r.funding_z, r.oi_delta_z, r.funding_days, r.oi_days⟩
    | .ok none => none
    | .error _ => none

/-- Instruments configured in the scripts (`COINS`). -/
def coinBitcoin : Coin := ⟨"bitcoin", "BTCUSDT", "BTC-USDT-SWAP"⟩

/-- Second configured instrument. -/
def coinEthereum : Coin := ⟨"ethereum", "ETHUSDT", "ETH-USDT-SWAP"⟩

/-- A 14-entry OI series whose 3-day changes dry up after index 5: three
readings of 1 followed by eleven readings of 0. -/
def s14 : List OIEntry :=
  [⟨0, 1⟩, ⟨1, 1⟩, ⟨2, 1⟩, ⟨3, 0⟩, ⟨4, 0⟩, ⟨5, 0⟩, ⟨6, 0⟩,
   ⟨7, 0⟩, ⟨8, 0⟩, ⟨9, 0⟩, ⟨10, 0⟩, ⟨11, 0⟩, ⟨12, 0⟩, ⟨13, 0⟩]

/-- The spec's 10-day end-to-end funding series: nine days of 0.0001 and a
latest day of 0.0010. -/
def f10x : List DailyEntry :=
  [⟨0, 1/10000⟩, ⟨1, 1/10000⟩, ⟨2, 1/10000⟩, ⟨3, 1/10000⟩, ⟨4, 1/10000⟩,
   ⟨5, 1/10000⟩, ⟨6, 1/10000⟩, ⟨7, 1/10000⟩, ⟨8, 1/10000⟩, ⟨9, 1/1000⟩]

/-- The spec's 11-day end-to-end funding series: ten days of 0.0001 and a
latest day of 0.0010. -/
def f11x : List DailyEntry :=
  [⟨0, 1/10000⟩, ⟨1, 1/10000⟩, ⟨2, 1/10000⟩, ⟨3, 1/10000⟩, ⟨4, 1/10000⟩,
   ⟨5, 1/10000⟩, ⟨6, 1/10000⟩, ⟨7, 1/10000⟩, ⟨8, 1/10000⟩, ⟨9, 1/10000⟩,
   ⟨10, 1/1000⟩]

/-- A previously published document, used to exercise the publishers. -/
def docPrev : Document :=
  ⟨"2025-01-01T00:00:00Z", 90, "bybit", [⟨"bitcoin", none, none, 15, 20⟩], none⟩

/-- A later document with an empty items list (a fully failed run). -/
def docEmpty : Document :=
  ⟨"2025-01-02T00:00:00Z", 90, "okx/bybit + fallback snapshot", [], none⟩

/-- A filesystem already holding `docPrev` at the published path. -/
def fsPrev : FS Document :=
  fun q => if q = "data/derivs.json" then some docPrev else none

/-- A per-coin outcome in which bitcoin's `build_for_symbol` raised and
ethereum's succeeded. -/
def resFail : Coin → Except Unit (Option SymRes) :=
  fun c => if c.id = "bitcoin" then .error () else .ok (some ⟨none, none, 15, 20⟩)

lemma filterMap_id_map_some (l : List ℚ) : (l.map some).filterMap id = l := by
  induction l with
  | nil => rfl
  | cons a t ih => simp [ih]

lemma popVar_nonneg (xs : List ℚ) : 0 ≤ popVar xs := by
  unfold popVar
  apply div_nonneg
  · apply List.sum_nonneg
    intro x hx
    obtain ⟨y, _, rfl⟩ := List.mem_map.mp hx
    positivity
  · positivity

lemma z_score_eq (series : List (Option ℚ)) (latest : ℚ) :
    z_score series latest =
      if (series.filterMap id).length < 10 then none
      else if popVar (series.filterMap id) = 0 then some 0
      else some (((latest - popMean (series.filterMap id) : ℚ) : ℝ) /
                   Real.sqrt ((popVar (series.filterMap id) : ℚ) : ℝ)) := by
  have h0 : (0 : ℚ) ≤ popVar (series.filterMap id) := popVar_nonneg _
  simp only [z_score, popVar, popMean]
  split_ifs with h1 h2 h3 h3
  · rfl
  · rfl
  · exfalso
    apply h3
    have hle : ((((series.filterMap id).map
        (fun x => (x - (series.filterMap id).sum / ((series.filterMap id).length : ℚ)) ^ 2)).sum /
          ((series.filterMap id).length : ℚ) : ℚ) : ℝ) ≤ 0 := Real.sqrt_eq_zero'.mp h2
    have hge := h0
    unfold popVar popMean at hge
    exact_mod_cast le_antisymm (by exact_mod_cast hle) hge
  · exfalso
    apply h2
    rw [h3]
    simp [Real.sqrt_zero]
  · rfl

lemma z_score_replicate (n : ℕ) (q x : ℚ) (hn : 10 ≤ n) :
    z_score (List.replicate n (some q)) x = some 0 := by
  have hxs : (List.replicate n (some q)).filterMap id = List.replicate n q := by
    induction n with
    | zero => rfl
    | succ m ih => simp [List.replicate_succ, ih]
  have hne : (n : ℚ) ≠ 0 := by
    have : n ≠ 0 := by omega
    exact_mod_cast this
  have hmean : popMean (List.replicate n q) = q := by
    simp only [popMean, List.sum_replicate, List.length_replicate, nsmul_eq_mul]
    field_simp
  have hvar : popVar (List.replicate n q) = 0 := by
    simp only [popVar, hmean, List.map_replicate, List.length_replicate]
    simp
  rw [z_score_eq, hxs]
  rw [if_neg (by simp; omega), hvar, if_pos rfl]

lemma z_score_map_some_ne_none (l : List ℚ) (x : ℚ) (h : 10 ≤ l.length) :
    z_score (l.map some) x ≠ none := by
  rw [z_score_eq, filterMap_id_map_some]
  rw [if_neg (by omega)]
  split_ifs <;> simp

/-- C3: `z_score` drops null history entries, refuses below 10 remaining
points, and otherwise standardises `latest` against the population mean and
population standard deviation (divide by N) of the filtered history,
returning exactly 0.0 when the standard deviation is exactly 0. -/
theorem z_score_characterization (series : List (Option ℚ)) (latest : ℚ) :
    z_score series latest =
      if (series.filterMap id).length < 10 then none
      else if popVar (series.filterMap id) = 0 then some 0
      else some (((latest - popMean (series.filterMap id) : ℚ) : ℝ) /
                   Real.sqrt ((popVar (series.filterMap id) : ℚ) : ℝ)) :=
  z_score_eq series latest

/-- C10: the OI delta z-score computation hard-refuses any series shorter
than 14 entries, returning a null value with `sample_days = 0` regardless
of the entries' values. -/
theorem oi_fourteen_day_floor (s : List OIEntry) (h : s.length < 14) :
    compute_oi_delta_z_from_series s = (none, 0) := by
  simp [compute_oi_delta_z_from_series, h]

theorem oi_fourteen_day_floor_check :
    ([⟨0, 5⟩, ⟨1, 7⟩, ⟨2, 9⟩] : List OIEntry).length < 14 ∧
      compute_oi_delta_z_from_series [⟨0, 5⟩, ⟨1, 7⟩, ⟨2, 9⟩] = (none, 0) :=
  ⟨by decide, oi_fourteen_day_floor _ (by decide)⟩

lemma funding_from_fields {f : List DailyEntry} {p : Option ℝ × ℕ}
    (h : funding_from f = some p) : p.1 ≠ none ∧ p.2 ≠ 0 := by
  unfold funding_from at h
  by_cases hl : 11 ≤ f.length
  · rw [if_pos hl] at h
    cases Option.some.inj h
    constructor
    · have hmap : (f.dropLast).map (fun e => some e.val)
          = ((f.dropLast).map DailyEntry.val).map some := by
        rw [List.map_map]
        rfl
      show z_score _ _ ≠ none
      rw [hmap]
      apply z_score_map_some_ne_none
      simp [List.length_dropLast]
      omega
    · show f.length ≠ 0
      omega
  · rw [if_neg hl] at h
    simp at h

lemma funding_try_fields {src : Except Unit (List DailyEntry)} {p : Option ℝ × ℕ}
    (h : funding_try src = some p) : p.1 ≠ none ∧ p.2 ≠ 0 := by
  cases src with
  | ok f => exact funding_from_fields h
  | error e => simp [funding_try] at h

lemma s14_changes : oiChanges s14 =
    [none, none, none, some (-1), some (-1), some (-1),
     none, none, none, none, none, none, none, none] := by
  have hr : List.range s14.length = [0, 1, 2, 3, 4, 5, 6, 7, 8, 9, 10, 11, 12, 13] := by
    decide
  unfold oiChanges
  rw [hr]
  norm_num [s14, List.getD]

/-- C2 counterexample: on the 14-day OI series `s14` (three readings of 1,
then eleven of 0) the pipeline's OI metric is a null z-score with
`sample_days = 3`, so `sample_days` can be nonzero while the value is null
(this outcome is published: `metric_oi_delta_z` accepts any result with
`days > 0`). -/
theorem oi_sample_days_pos_with_null_value :
    compute_oi_delta_z_from_series s14 = (none, 3) ∧ (3 : ℕ) ≠ 0 := by
  constructor
  · have h14 : ¬ s14.length < 14 := by decide
    unfold compute_oi_delta_z_from_series
    rw [if_neg h14]
    simp only [s14_changes]
    norm_num [List.range, List.range.loop, List.zip, List.zipWith, List.filterMap,
      List.take, z_score]
  · decide

/-- C2 amended: `sample_days = 0` implies the z-score value is null, and for
the funding metric the two are equivalent; the OI metric, however, can
report a null value together with a positive `sample_days` (see the
counterexample), so the claimed "iff" holds only in one direction there. -/
theorem sample_days_zero_implies_null :
    (∀ s : List OIEntry, (compute_oi_delta_z_from_series s).2 = 0 →
        (compute_oi_delta_z_from_series s).1 = none)
    ∧ (∀ b o : Except Unit (List DailyEntry),
        ((metric_funding_z_core b o).1 = none ↔ (metric_funding_z_core b o).2 = 0)) := by
  constructor
  · intro s h
    unfold compute_oi_delta_z_from_series at h ⊢
    by_cases h14 : s.length < 14
    · rw [if_pos h14]
    · rw [if_neg h14] at h ⊢
      rcases hm : (((oiChanges s).zip (List.range (oiChanges s).length)).filterMap
          (fun p => p.1.map (fun v => (v, p.2)))).getLast? with _ | ⟨v, idx⟩
      · simp [hm]
      · simp only [hm] at h ⊢
        simp at h
  · intro b o
    unfold metric_funding_z_core
    cases hb : funding_try b with
    | some p =>
      obtain ⟨h1, h2⟩ := funding_try_fields hb
      simp [Option.orElse, h1, h2]
    | none =>
      cases ho : funding_try o with
      | some p =>
        obtain ⟨h1, h2⟩ := funding_try_fields ho
        simp [Option.orElse, h1, h2]
      | none => simp [Option.orElse]

theorem sample_days_zero_implies_null_check :
    (compute_oi_delta_z_from_series []).2 = 0 ∧
      (compute_oi_delta_z_from_series []).1 = none := by
  have h : (compute_oi_delta_z_from_series ([] : List OIEntry)).2 = 0 := by
    simp [compute_oi_delta_z_from_series]
  exact ⟨h, sample_days_zero_implies_null.1 [] h⟩

/-- C4: the funding metric scores the last day against the preceding days
only (history = `f[:-1]`, latest = `f[-1]`); on the spec's 10-day scenario
(nine days of 0.0001 and a latest of 0.0010) `funding_z` is null, and on the
11-day scenario (ten constant days then a deviating latest) the history is
flat, so `funding_z` is exactly 0.0. -/
theorem funding_latest_excluded :
    (∀ f : List DailyEntry, 11 ≤ f.length →
        metric_funding_z_core (.ok f) (.error ())
          = (z_score ((f.dropLast).map (fun e => some e.val))
               (((f.getLast?).getD ⟨0, 0⟩).val), f.length))
    ∧ metric_funding_z_core (.ok f10x) (.error ()) = (none, 0)
    ∧ metric_funding_z_core (.ok f11x) (.error ()) = (some 0, 11) := by
  have hgen : ∀ f : List DailyEntry, 11 ≤ f.length →
      metric_funding_z_core (.ok f) (.error ())
        = (z_score ((f.dropLast).map (fun e => some e.val))
             (((f.getLast?).getD ⟨0, 0⟩).val), f.length) := by
    intro f hf
    simp only [metric_funding_z_core, funding_try, funding_from]
    rw [if_pos hf]
    simp [Option.orElse]
  refine ⟨hgen, ?_, ?_⟩
  · simp only [metric_funding_z_core, funding_try, funding_from]
    rw [if_neg (by decide : ¬ 11 ≤ f10x.length)]
    simp [Option.orElse]
  · rw [hgen f11x (by decide)]
    have hhist : (f11x.dropLast).map (fun e => some e.val)
        = List.replicate 10 (some (1/10000 : ℚ)) := by
      show _ = [some (1/10000 : ℚ), some (1/10000), some (1/10000),
        some (1/10000), some (1/10000), some (1/10000), some (1/10000),
        some (1/10000), some (1/10000), some (1/10000)]
      norm_num [f11x]
    have hlast : ((f11x.getLast?).getD ⟨0, 0⟩).val = 1/1000 := by
      norm_num [f11x]
    rw [hhist, hlast, z_score_replicate 10 _ _ (by norm_num)]
    have hlen : f11x.length = 11 := by decide
    rw [hlen]

theorem funding_latest_excluded_check :
    11 ≤ f11x.length ∧
      metric_funding_z_core (.ok f11x) (.error ())
        = (z_score ((f11x.dropLast).map (fun e => some e.val))
             (((f11x.getLast?).getD ⟨0, 0⟩).val), f11x.length) :=
  ⟨by decide, funding_latest_excluded.1 f11x (by decide)⟩

/-- C5: `compute_oi_3d_change` keeps the series length, and entry `i` keeps
day `i`'s date with a change of `oi[i] / oi[i-3] - 1` for `i ≥ 3` (null when
the denominator `oi[i-3]` is zero) and null for `i < 3`. -/
theorem oi_3d_change_entries (s : List OIEntry) (i : ℕ) (h : i < s.length) :
    (compute_oi_3d_change s).length = s.length ∧
      (compute_oi_3d_change s).getD i ⟨0, none⟩ =
        { date := (s.getD i ⟨0, 0⟩).date,
          oi3 :=
            if i < 3 then none
            else if (s.getD (i - 3) ⟨0, 0⟩).oi = 0 then none
            else some ((s.getD i ⟨0, 0⟩).oi / (s.getD (i - 3) ⟨0, 0⟩).oi - 1) } := by
  constructor
  · simp [compute_oi_3d_change]
  · unfold compute_oi_3d_change
    simp only [List.getD, List.get?_eq_getElem?, List.getElem?_map,
      List.getElem?_range h, Option.map_some', Option.getD_some]
    by_cases h3 : 3 ≤ i
    · have h3' : ¬ i < 3 := by omega
      simp [h3, h3']
    · have h3' : i < 3 := by omega
      simp [h3, h3']

theorem oi_3d_change_entries_check :
    (4 < ([⟨0, 2⟩, ⟨1, 4⟩, ⟨2, 6⟩, ⟨3, 8⟩, ⟨4, 2⟩] : List OIEntry).length) ∧
      ((compute_oi_3d_change [⟨0, 2⟩, ⟨1, 4⟩, ⟨2, 6⟩, ⟨3, 8⟩, ⟨4, 2⟩]).length
          = ([⟨0, 2⟩, ⟨1, 4⟩, ⟨2, 6⟩, ⟨3, 8⟩, ⟨4, 2⟩] : List OIEntry).length ∧
        (compute_oi_3d_change [⟨0, 2⟩, ⟨1, 4⟩, ⟨2, 6⟩, ⟨3, 8⟩, ⟨4, 2⟩]).getD 4 ⟨0, none⟩ =
          { date := (([⟨0, 2⟩, ⟨1, 4⟩, ⟨2, 6⟩, ⟨3, 8⟩, ⟨4, 2⟩] : List OIEntry).getD 4 ⟨0, 0⟩).date,
            oi3 :=
              if 4 < 3 then none
              else if (([⟨0, 2⟩, ⟨1, 4⟩, ⟨2, 6⟩, ⟨3, 8⟩, ⟨4, 2⟩] : List OIEntry).getD (4 - 3) ⟨0, 0⟩).oi = 0 then none
              else some ((([⟨0, 2⟩, ⟨1, 4⟩, ⟨2, 6⟩, ⟨3, 8⟩, ⟨4, 2⟩] : List OIEntry).getD 4 ⟨0, 0⟩).oi /
                (([⟨0, 2⟩, ⟨1, 4⟩, ⟨2, 6⟩, ⟨3, 8⟩, ⟨4, 2⟩] : List OIEntry).getD (4 - 3) ⟨0, 0⟩).oi - 1) }) :=
  ⟨by decide, oi_3d_change_entries [⟨0, 2⟩, ⟨1, 4⟩, ⟨2, 6⟩, ⟨3, 8⟩, ⟨4, 2⟩] 4 (by decide)⟩

/-- C6 counterexample: two same-day OI samples fed newest-first — the sample
with timestamp 1000 (oi 5) precedes the sample with timestamp 500 (oi 3) in
the batch — aggregate to the oi of the batch's last element, 3, not the
chronologically later reading 5. -/
theorem oi_aggregator_keeps_input_order_last :
    oi_daily_agg_8h [⟨1000, 5⟩, ⟨500, 3⟩] = [⟨0, 3⟩]
    ∧ (500 : ℕ) < 1000 ∧ (3 : ℚ) ≠ 5 := by
  refine ⟨?_, by decide, by norm_num⟩
  decide

/-- C6 amended: two samples on the same UTC day aggregate to exactly one
entry for that day; its value is the arithmetic mean of the rates in funding
mode, and in open-interest mode the value of the sample appearing last in
the input batch — which is the chronologically later one only when the
batch is ordered oldest-first. -/
theorem daily_aggregator_same_day (s1 s2 : RawFunding) (days : ℕ)
    (o1 o2 : RawOI) (hf : dayOf s2.ts = dayOf s1.ts)
    (ho : dayOf o2.ts = dayOf o1.ts) :
    funding_daily_agg [s1, s2] days = [⟨dayOf s1.ts, (s1.rate + s2.rate) / 2⟩]
    ∧ oi_daily_agg_8h [o1, o2] = [⟨dayOf o1.ts, o2.oi⟩] := by
  constructor
  · unfold funding_daily_agg
    have hdl : ([s1, s2].map (fun s => dayOf s.ts)) = [dayOf s1.ts, dayOf s1.ts] := by
      simp [hf]
    rw [hdl, List.dedup_cons_of_mem (by simp), List.dedup_cons_of_not_mem (by simp),
      List.dedup_nil]
    have hsort : ([dayOf s1.ts] : List ℕ).insertionSort (· ≤ ·) = [dayOf s1.ts] := by
      simp [List.insertionSort, List.orderedInsert]
    rw [hsort]
    have hfil : ([s1, s2].filter (fun s => decide (dayOf s.ts = dayOf s1.ts))) = [s1, s2] := by
      simp [List.filter, hf]
    simp [hfil]
  · unfold oi_daily_agg_8h
    have hdl : ([o1, o2].map (fun r => dayOf r.ts)) = [dayOf o1.ts, dayOf o1.ts] := by
      simp [ho]
    rw [hdl, List.dedup_cons_of_mem (by simp), List.dedup_cons_of_not_mem (by simp),
      List.dedup_nil]
    have hsort : ([dayOf o1.ts] : List ℕ).insertionSort (· ≤ ·) = [dayOf o1.ts] := by
      simp [List.insertionSort, List.orderedInsert]
    rw [hsort]
    have hfil : ([o1, o2].filter (fun r => decide (dayOf r.ts = dayOf o1.ts))) = [o1, o2] := by
      simp [List.filter, ho]
    simp [hfil]
    simp [List.find?, ho]

theorem daily_aggregator_same_day_check :
    dayOf (200 : ℕ) = dayOf (100 : ℕ) ∧ dayOf (1000 : ℕ) = dayOf (500 : ℕ) ∧
      (funding_daily_agg [⟨100, 1/100⟩, ⟨200, 3/100⟩] 90
          = [⟨dayOf (100 : ℕ), ((1/100 : ℚ) + 3/100) / 2⟩]
        ∧ oi_daily_agg_8h [⟨500, 3⟩, ⟨1000, 5⟩] = [⟨dayOf (500 : ℕ), 5⟩]) :=
  ⟨by decide, by decide,
    daily_aggregator_same_day ⟨100, 1/100⟩ ⟨200, 3/100⟩ 90 ⟨500, 3⟩ ⟨1000, 5⟩
      (by decide) (by decide)⟩

/-- C7: loading immediately after saving returns the series truncated to its
most recent `cap` entries when it is longer than `cap` (for the positive
caps the pipeline uses; `save_series` is always called with `cap=200`) and
the unchanged series otherwise, still sorted ascending by date. -/
theorem snapshot_roundtrip (fs : FS (List OIEntry)) (id : String)
    (series : List OIEntry) (cap : ℕ) (hcap : 0 < cap)
    (hsorted : List.Sorted (· < ·) (series.map OIEntry.date)) :
    load_series (save_series fs (series_path id) series cap) (series_path id)
        = (if cap < series.length then series.drop (series.length - cap) else series)
    ∧ List.Sorted (· < ·)
        ((load_series (save_series fs (series_path id) series cap)
            (series_path id)).map OIEntry.date) := by
  have hload : load_series (save_series fs (series_path id) series cap) (series_path id)
      = (if cap < series.length then series.drop (series.length - cap) else series) := by
    simp [load_series, save_series, fsWrite, hcap.ne']
  refine ⟨hload, ?_⟩
  rw [hload]
  split_ifs with hlen
  · rw [List.map_drop]
    exact List.Pairwise.sublist (List.drop_sublist _ _) hsorted
  · exact hsorted

theorem snapshot_roundtrip_check :
    (0 < 2) ∧
      List.Sorted (· < ·) (([⟨0, 1⟩, ⟨1, 2⟩, ⟨2, 3⟩] : List OIEntry).map OIEntry.date) ∧
      (load_series (save_series (fun _ => none) (series_path "bitcoin")
            [⟨0, 1⟩, ⟨1, 2⟩, ⟨2, 3⟩] 2) (series_path "bitcoin")
          = (if 2 < ([⟨0, 1⟩, ⟨1, 2⟩, ⟨2, 3⟩] : List OIEntry).length then
               ([⟨0, 1⟩, ⟨1, 2⟩, ⟨2, 3⟩] : List OIEntry).drop
                 (([⟨0, 1⟩, ⟨1, 2⟩, ⟨2, 3⟩] : List OIEntry).length - 2)
             else [⟨0, 1⟩, ⟨1, 2⟩, ⟨2, 3⟩])
        ∧ List.Sorted (· < ·)
            ((load_series (save_series (fun _ => none) (series_path "bitcoin")
                [⟨0, 1⟩, ⟨1, 2⟩, ⟨2, 3⟩] 2) (series_path "bitcoin")).map OIEntry.date)) :=
  ⟨by decide, by decide,
    snapshot_roundtrip (fun _ => none) "bitcoin" [⟨0, 1⟩, ⟨1, 2⟩, ⟨2, 3⟩] 2
      (by decide) (by decide)⟩

/-- C8 counterexample: merging the current reading `⟨date 0, oi 3⟩` into the
series `[⟨0, 1⟩, ⟨1, 2⟩]` — whose date 0 is present but not last — appends
instead of overwriting, leaving two entries dated 0. -/
theorem merge_duplicates_nonlast_date :
    merge_current [⟨0, 1⟩, ⟨1, 2⟩] ⟨0, 3⟩ = [⟨0, 1⟩, ⟨1, 2⟩, ⟨0, 3⟩]
    ∧ ¬ ((merge_current [⟨0, 1⟩, ⟨1, 2⟩] ⟨0, 3⟩).map OIEntry.date).Nodup := by
  constructor
  · decide
  · decide

/-- C8 amended: the merge overwrites only when the reading's date equals the
last entry's date, and otherwise appends even if the date matches an earlier
entry; duplicate-freedom of the dates is preserved provided the incoming
date does not match any entry other than possibly the last. -/
theorem merge_last_day_semantics (series : List OIEntry) (cur : OIEntry)
    (hnodup : (series.map OIEntry.date).Nodup)
    (hnew : cur.date ∉ (series.dropLast.map OIEntry.date)) :
    ((merge_current series cur).map OIEntry.date).Nodup
    ∧ merge_current series cur =
        (match series.getLast? with
         | some l => if l.date = cur.date then series.dropLast ++ [cur] else series ++ [cur]
         | none => [cur]) := by
  refine ⟨?_, rfl⟩
  rcases List.eq_nil_or_concat series with rfl | ⟨t, a, rfl⟩
  · simp [merge_current]
  · simp only [List.concat_eq_append] at hnodup hnew ⊢
    simp only [merge_current, List.getLast?_concat]
    rw [List.dropLast_concat] at hnew
    by_cases hd : a.date = cur.date
    · rw [if_pos hd, List.dropLast_concat]
      have hnd : (t.map OIEntry.date).Nodup :=
        List.Nodup.sublist ((List.sublist_append_left t [a]).map _) hnodup
      rw [List.map_append]
      refine List.Nodup.append hnd (by simp) ?_
      intro x hx hx'
      simp at hx'
      subst hx'
      exact hnew hx
    · rw [if_neg hd, List.map_append]
      refine List.Nodup.append hnodup (by simp) ?_
      intro x hx hx'
      simp at hx'
      subst hx'
      rw [List.map_append] at hx
      rcases List.mem_append.mp hx with h1 | h2
      · exact hnew h1
      · simp at h2
        exact hd h2.symm

theorem merge_last_day_semantics_check :
    (([⟨0, 1⟩, ⟨1, 2⟩] : List OIEntry).map OIEntry.date).Nodup ∧
      ((1 : ℕ) ∉ (([⟨0, 1⟩, ⟨1, 2⟩] : List OIEntry).dropLast.map OIEntry.date)) ∧
      (((merge_current [⟨0, 1⟩, ⟨1, 2⟩] ⟨1, 5⟩).map OIEntry.date).Nodup
        ∧ merge_current [⟨0, 1⟩, ⟨1, 2⟩] ⟨1, 5⟩ =
            (match ([⟨0, 1⟩, ⟨1, 2⟩] : List OIEntry).getLast? with
             | some l => if l.date = (⟨1, 5⟩ : OIEntry).date then
                 ([⟨0, 1⟩, ⟨1, 2⟩] : List OIEntry).dropLast ++ [⟨1, 5⟩]
               else [⟨0, 1⟩, ⟨1, 2⟩] ++ [⟨1, 5⟩]
             | none => [⟨1, 5⟩])) :=
  ⟨by decide, by decide,
    merge_last_day_semantics [⟨0, 1⟩, ⟨1, 2⟩] ⟨1, 5⟩ (by decide) (by decide)⟩

lemma path_ne_tmp (path : String) : path ≠ path ++ ".tmp" := by
  intro h
  have hlen := congrArg String.length h
  rw [String.length_append] at hlen
  have h4 : (".tmp" : String).length = 4 := by decide
  omega

/-- C1 counterexample: the publish step of build_metrics.py's `main` writes
the target in place — publishing `docEmpty` (0 items, below the default
minimum of 1) over a filesystem holding `docPrev` changes the file at the
target path, and no temp file is involved. -/
theorem metrics_publish_overwrites_below_min :
    docEmpty.items.length < 1
    ∧ fsPrev "data/derivs.json" = some docPrev
    ∧ write_json_plain fsPrev "data/derivs.json" docEmpty "data/derivs.json"
        = some docEmpty
    ∧ some docEmpty ≠ some docPrev
    ∧ write_json_plain fsPrev "data/derivs.json" docEmpty
        ("data/derivs.json" ++ ".tmp") = none := by
  have hstr : ("data/derivs.json" ++ ".tmp" : String) ≠ "data/derivs.json" := by
    decide
  refine ⟨by decide, by simp [fsPrev], ?_, ?_, ?_⟩
  · simp [write_json_plain, fsWrite]
  · simp [docEmpty, docPrev]
  · simp [write_json_plain, fsWrite, fsPrev, hstr]

/-- C1 amended: `write_json_atomic` (build_derivs_json.py) fully writes the
document to `path + ".tmp"` and renames it onto `path` only when the item
count meets `min_items`, leaving the file at `path` exactly as before
otherwise; the temp path holds no file after the call in either case.
build_metrics.py's `main`, in contrast, writes the target directly (see the
counterexample), so the claimed guarantee holds only for the derivs-script
publisher. -/
theorem atomic_publisher_behavior (fs : FS Document) (path : String)
    (data : Document) (min_items : ℕ) :
    (write_json_atomic fs path data min_items) path
        = (if min_items ≤ data.items.length then some data else fs path)
    ∧ (write_json_atomic fs path data min_items) (path ++ ".tmp") = none := by
  have hne : path ≠ path ++ ".tmp" := path_ne_tmp path
  constructor
  · by_cases hmin : min_items ≤ data.items.length
    · simp [write_json_atomic, fsRemove, fsWrite, apply_ite, hmin, hne]
    · simp [write_json_atomic, fsRemove, fsWrite, apply_ite, hmin, hne]
  · simp [write_json_atomic, fsRemove, fsWrite, ite_apply]

/-- C9 counterexample: with bitcoin's `build_for_symbol` raising and
ethereum's succeeding, build_derivs_json.py's `main` publishes items for
ethereum only — the failing instrument is omitted from the output, not
reported with null metrics. -/
theorem derivs_failed_instrument_omitted :
    build_items_derivs [coinBitcoin, coinEthereum] resFail
        = [⟨"ethereum", none, none, 15, 20⟩]
    ∧ "bitcoin" ∉ (build_items_derivs [coinBitcoin, coinEthereum] resFail).map Item.id := by
  have h : build_items_derivs [coinBitcoin, coinEthereum] resFail
      = [⟨"ethereum", none, none, 15, 20⟩] := by
    simp [build_items_derivs, resFail, coinBitcoin, coinEthereum]
  refine ⟨h, ?_⟩
  rw [h]
  simp

/-- C9 amended: in build_metrics.py every configured instrument appears in
the items with its metric outcomes (a failed metric is a null value there),
while in build_derivs_json.py an instrument whose build raised is dropped
from the items and the loop continues with the rest; the derivs publisher
then replaces the previous document only when the item count meets the
minimum. -/
theorem failure_isolation_amended :
    (∀ (coins : List Coin) (fres ores : Coin → Option ℝ × ℕ),
        (build_items_metrics coins fres ores).length = coins.length)
    ∧ (∀ (coins : List Coin) (fres ores : Coin → Option ℝ × ℕ) (c : Coin),
        c ∈ coins →
          (⟨c.id, (fres c).1, (ores c).1, (fres c).2, (ores c).2⟩ : Item)
            ∈ build_items_metrics coins fres ores)
    ∧ (∀ (c : Coin) (cs : List Coin) (res : Coin → Except Unit (Option SymRes)),
        res c = .error () →
          build_items_derivs (c :: cs) res = build_items_derivs cs res)
    ∧ (∀ (fs : FS Document) (path : String) (d : Document) (m : ℕ),
        m ≤ d.items.length → (write_json_atomic fs path d m) path = some d) := by
  refine ⟨?_, ?_, ?_, ?_⟩
  · intro coins fres ores
    simp [build_items_metrics]
  · intro coins fres ores c hc
    simp only [build_items_metrics]
    exact List.mem_map_of_mem _ hc
  · intro c cs res h
    simp [build_items_derivs, h]
  · intro fs path d m hm
    simp [write_json_atomic, fsRemove, fsWrite, apply_ite, hm, path_ne_tmp path]

theorem failure_isolation_amended_check :
    ((coinBitcoin ∈ [coinBitcoin, coinEthereum]) ∧
      (⟨coinBitcoin.id, (none : Option ℝ), (none : Option ℝ), 0, 0⟩ : Item)
        ∈ build_items_metrics [coinBitcoin, coinEthereum]
            (fun _ => (none, 0)) (fun _ => (none, 0)))
    ∧ (resFail coinBitcoin = .error ()
      ∧ build_items_derivs (coinBitcoin :: [coinEthereum]) resFail
          = build_items_derivs [coinEthereum] resFail)
    ∧ (1 ≤ docPrev.items.length
      ∧ write_json_atomic fsPrev "data/derivs.json" docPrev 1 "data/derivs.json"
          = some docPrev) := by
  have hc : coinBitcoin ∈ [coinBitcoin, coinEthereum] := List.mem_cons_self _ _
  have hr : resFail coinBitcoin = .error () := by simp [resFail, coinBitcoin]
  have hd : 1 ≤ docPrev.items.length := by decide
  exact ⟨⟨hc, failure_isolation_amended.2.1 [coinBitcoin, coinEthereum] _ _ coinBitcoin hc⟩,
    ⟨hr, failure_isolation_amended.2.2.1 coinBitcoin [coinEthereum] resFail hr⟩,
    ⟨hd, failure_isolation_amended.2.2.2 fsPrev "data/derivs.json" docPrev 1 hd⟩⟩
